import Mathlib

/-!
Verification of the `self-update` command of the `mago` CLI
(`src/commands/self_update.rs`).

The Rust source is shallowly embedded: pure helpers (`confirm_prompt`'s
decision logic, `get_target_asset_from_release`, `is_homebrew_cellar_path`,
`detect_homebrew_install`, `is_homebrew_install`, the binary-path template
substitution) become Lean functions; the effectful orchestration
(`perform_update`, `execute`) becomes a function over an environment of
oracles (one per external call: release lookup, version comparison, stdin,
filesystem, network, self-replace), returning the `Except` result paired
with the ordered list of observable steps the run performed.

Strings are modelled as their character sequences; filesystem paths as
their parsed component lists (mirroring `std::path::Component`).
-/

namespace Mago

/-- Rust `std::path::Component`, restricted to the variants the program can
meet on absolute/relative Unix-style paths. -/
inductive PathComponent where
  | rootDir
  | curDir
  | parentDir
  | normal (s : String)
deriving DecidableEq

/-- A parsed path, as its component sequence (Rust `Path::components()`). -/
abbrev RPath := List PathComponent

/-- The `Component::Normal` parts of a path, in order (the `filter_map` in
`is_homebrew_cellar_path`, src lines 281-284). -/
def normalComponents (p : RPath) : List String :=
  p.filterMap fun c =>
    match c with
    | .normal s => some s
    | _ => none

/-- The scanning loop of `is_homebrew_cellar_path` (src lines 286-292):
walk the normal components keeping the previous one; report true when the
previous component is `Cellar` and the current one is `mago` or starts with
`mago@`. -/
def cellar_scan : Option String → List String → Bool
  | _, [] => false
  | previous, component :: rest =>
    if previous == some "Cellar"
        && (component == "mago" || "mago@".data.isPrefixOf component.data) then
      true
    else
      cellar_scan (some component) rest

/-- `is_homebrew_cellar_path` (src lines 280-295). -/
def is_homebrew_cellar_path (path : RPath) : Bool :=
  cellar_scan none (normalComponents path)

/-- Rust `Path::starts_with` compares whole components: `base` must be a
component-wise prefix of `p`. -/
def path_starts_with (p base : RPath) : Bool :=
  base.isPrefixOf p

/-- `detect_homebrew_install` (src lines 273-278). -/
def detect_homebrew_install (paths : List RPath) (brew_roots : List RPath) : Bool :=
  paths.any fun path =>
    is_homebrew_cellar_path path
      || brew_roots.any fun root => !root.isEmpty && path_starts_with path root

/-- The ambient facts `is_homebrew_install` (src lines 246-271) reads from
the operating system: the current executable path (`env::current_exe`,
`none` when the OS call fails), a canonicalization oracle
(`Path::canonicalize`, `none` on failure), and the three Homebrew
environment variables, already parsed into paths (`none` when unset). -/
structure GuardEnv where
  current_exe : Option RPath
  canonicalize : RPath → Option RPath
  homebrew_prefix : Option RPath
  homebrew_cellar : Option RPath
  homebrew_repository : Option RPath

/-- The root list built by `is_homebrew_install` (src lines 257-268): for
each set, non-empty variable, its canonical form (when canonicalizable)
followed by the path itself. -/
def guard_root_paths (genv : GuardEnv) : List RPath :=
  [genv.homebrew_prefix, genv.homebrew_cellar, genv.homebrew_repository].foldr
    (fun value acc =>
      match value with
      | none => acc
      | some path =>
        if !path.isEmpty then
          (match genv.canonicalize path with
           | some canonical => [canonical, path]
           | none => [path]) ++ acc
        else acc)
    []

/-- `is_homebrew_install` (src lines 246-271): returns `false` outright when
the current executable path cannot be resolved; otherwise gathers the
executable path plus its canonical form and the Homebrew roots, and defers
to `detect_homebrew_install`. -/
def is_homebrew_install (genv : GuardEnv) : Bool :=
  match genv.current_exe with
  | none => false
  | some exe_path =>
    let candidate_paths :=
      exe_path :: (match genv.canonicalize exe_path with
                   | some canonical => [canonical]
                   | none => [])
    detect_homebrew_install candidate_paths (guard_root_paths genv)

/-- `self_update::update::ReleaseAsset`, the fields the program reads. -/
structure ReleaseAsset where
  name : String
  download_url : String
deriving DecidableEq

/-- `self_update::update::Release`, the fields the program reads. -/
structure Release where
  version : String
  assets : List ReleaseAsset
deriving DecidableEq

/-- `self_update::update::UpdateStatus`. -/
inductive UpdateStatus where
  | upToDate
  | updated (release : Release)
deriving DecidableEq

/-- The error kinds `self_update::errors::Error` contributes here:
`Update(msg)` (user cancellation), `Release(msg)` (missing asset / release),
and an unclassified kind standing for the I/O, network and semver failures
the oracles may report. -/
inductive SelfUpdateErr where
  | update (msg : String)
  | release (msg : String)
  | other (msg : String)
deriving DecidableEq

/-- `crate::error::Error`, restricted to the one variant this file builds. -/
inductive Error where
  | selfUpdate (e : SelfUpdateErr)
deriving DecidableEq

/-- `std::process::ExitCode`, restricted to the two values the command
returns. -/
inductive ExitCode where
  | success
  | failure
deriving DecidableEq

/-- The observable steps of one run, in execution order. `exeReplaced` is
emitted only after `self_replace` returned success, i.e. exactly when the
on-disk executable has been swapped. -/
inductive Step where
  | getLatestRelease
  | getReleaseVersion
  | guardCheck
  | warnHomebrewRedirect
  | selectAsset
  | confirmPrompt
  | createWorkspace
  | createFile
  | download
  | extract
  | replaceExe
  | exeReplaced
deriving DecidableEq

deriving instance DecidableEq for Except

/-- A run outcome: the `Except` result together with the ordered steps. -/
abbrev Tr (α : Type) := Except Error α × List Step

/-- The oracle environment for one `self-update` invocation: the
configuration constants (`crate::consts`), the request fields carried by the
built `ReleaseUpdate`, and one oracle per external effect the source
performs. -/
structure UpdateEnv where
  current_version : String
  target : String
  archive_extension : String
  bin : String
  tag : Option String
  no_confirm : Bool
  get_latest_release : Except Error Release
  get_release_version : String → Except Error Release
  bump_is_greater : String → String → Except Error Bool
  bump_is_compatible : String → String → Except Error Bool
  stdin_line : Except Error String
  create_workspace : Except Error Unit
  create_file : String → Except Error Unit
  api_headers : Except Error Unit
  download : String → Except Error Unit
  extract : String → Except Error Unit
  self_replace : Except Error Unit
  guard : GuardEnv

/-- Rust `str::trim` on character sequences: strip whitespace from both
ends. -/
def rustTrim (l : List Char) : List Char :=
  ((l.dropWhile Char.isWhitespace).reverse.dropWhile Char.isWhitespace).reverse

/-- Rust `str::to_lowercase` on character sequences, character-wise (the
inputs this program compares against are ASCII). -/
def rustToLower (l : List Char) : List Char :=
  l.map Char.toLower

/-- The decision logic of `confirm_prompt` (src lines 224-229) on the line
read from stdin: trim, lowercase, then fail with the user-cancelled error
unless the result is empty or `y`. (The stdout writes of the prompt are
modelled as infallible; they do not affect the decision.) -/
def confirm_prompt (line : String) : Except Error Unit :=
  let s := rustToLower (rustTrim line.data)
  if !s.isEmpty && s != "y".data then
    Except.error (.selfUpdate (.update "User cancelled the update"))
  else
    Except.ok ()

/-- Rust `str::contains` on character sequences: `sub` occurs as a
contiguous subsequence. -/
def containsSub (sub : List Char) : List Char → Bool
  | [] => sub.isEmpty
  | c :: rest => sub.isPrefixOf (c :: rest) || containsSub sub rest

/-- The asset filter of `get_target_asset_from_release` (src line 240):
the asset name contains the target triple and ends with the archive
extension. -/
def asset_matches (target archive_extension : String) (asset : ReleaseAsset) : Bool :=
  containsSub target.data asset.name.data && archive_extension.data.isSuffixOf asset.name.data

/-- `get_target_asset_from_release` (src lines 236-244): the first matching
asset in the release's published order, else the no-asset error. -/
def get_target_asset_from_release (target archive_extension : String) (release : Release) :
    Except Error ReleaseAsset :=
  match release.assets.find? (asset_matches target archive_extension) with
  | some asset => Except.ok asset
  | none => Except.error (.selfUpdate (.release "No asset found for the current platform."))

/-- Rust `str::replace` on character sequences: scan left to right, replace
each non-overlapping occurrence of `pat`, never rescanning emitted
replacement text within the same call. (All patterns used by the source are
non-empty; on an empty pattern this model leaves the string unchanged.) -/
def replaceAux (pat rep : List Char) : List Char → List Char
  | [] => []
  | c :: rest =>
    if h : pat ≠ [] ∧ pat.isPrefixOf (c :: rest) then
      rep ++ replaceAux pat rep (List.drop pat.length (c :: rest))
    else
      c :: replaceAux pat rep rest
termination_by l => l.length
decreasing_by
  · simp only [List.length_drop, List.length_cons]
    have : pat.length ≥ 1 := List.length_pos.mpr h.1
    omega
  · simp

/-- Rust `str::replace` lifted to strings. -/
def rustReplace (s pat rep : String) : String :=
  ⟨replaceAux pat.data rep.data s.data⟩

/-- The version placeholder literal of the template. -/
def vtok : String := "\x7b\x7b version \x7d\x7d"

/-- The target placeholder literal of the template. -/
def ttok : String := "\x7b\x7b target \x7d\x7d"

/-- The bin placeholder literal of the template. -/
def btok : String := "\x7b\x7b bin \x7d\x7d"

/-- The archive-internal binary path template configured at src line 74. -/
def BIN_PATH_IN_ARCHIVE : String :=
  "\x7b\x7b bin \x7d\x7d-\x7b\x7b version \x7d\x7d-\x7b\x7b target \x7d\x7d/\x7b\x7b bin \x7d\x7d"

/-- The template resolution of src lines 197-201: three sequential
`str::replace` calls, substituting the version, then the target, then the
binary name. -/
def resolve_binary_path (template version target bin : String) : String :=
  rustReplace (rustReplace (rustReplace template vtok version) ttok target) btok bin

/-- Modelled from the spec: independent named-placeholder substitution
("a single function taking named placeholders and their values together,
not sequential independent replacements"). One simultaneous left-to-right
scan of the template; substituted values are never rescanned. This is the
spec-side definition `resolve_binary_path` is compared against. -/
def substNamedAux (version target bin : List Char) : List Char → List Char
  | [] => []
  | c :: rest =>
    if vtok.data.isPrefixOf (c :: rest) then
      version ++ substNamedAux version target bin (List.drop vtok.data.length (c :: rest))
    else if ttok.data.isPrefixOf (c :: rest) then
      target ++ substNamedAux version target bin (List.drop ttok.data.length (c :: rest))
    else if btok.data.isPrefixOf (c :: rest) then
      bin ++ substNamedAux version target bin (List.drop btok.data.length (c :: rest))
    else
      c :: substNamedAux version target bin rest
termination_by l => l.length
decreasing_by
  all_goals simp only [List.length_drop, List.length_cons]
  · have : vtok.data.length = 13 := rfl
    omega
  · have : ttok.data.length = 12 := rfl
    omega
  · have : btok.data.length = 9 := rfl
    omega
  · omega

/-- Modelled from the spec: independent substitution lifted to strings. -/
def subst_named (template version target bin : String) : String :=
  ⟨substNamedAux version.data target.data bin.data template.data⟩

/-- The confirmation stage of `perform_update` (src lines 180-182): skipped
when `no_confirm` is set; otherwise the prompt runs (one `confirmPrompt`
step), the stdin read may fail, and the read line is judged by
`confirm_prompt`. -/
def confirm_step (env : UpdateEnv) : Tr Unit :=
  if env.no_confirm then
    (Except.ok (), [])
  else
    match env.stdin_line with
    | .error e => (.error e, [Step.confirmPrompt])
    | .ok line => (confirm_prompt line, [Step.confirmPrompt])

/-- Src lines 184-212: workspace creation, archive file creation, request
headers, download, extraction of the resolved binary path, and the
self-replace call. Each oracle is consulted in source order; the step list
records each effect at its invocation, and `exeReplaced` records a
completed swap. -/
def fetch_extract_replace (env : UpdateEnv) (release : Release) (asset : ReleaseAsset) :
    Tr UpdateStatus :=
  match env.create_workspace with
  | .error e => (.error e, [Step.createWorkspace])
  | .ok _ =>
  match env.create_file asset.name with
  | .error e => (.error e, [Step.createWorkspace, Step.createFile])
  | .ok _ =>
  match env.api_headers with
  | .error e => (.error e, [Step.createWorkspace, Step.createFile])
  | .ok _ =>
  match env.download asset.download_url with
  | .error e => (.error e, [Step.createWorkspace, Step.createFile, Step.download])
  | .ok _ =>
  match env.extract (resolve_binary_path BIN_PATH_IN_ARCHIVE release.version env.target env.bin) with
  | .error e =>
    (.error e, [Step.createWorkspace, Step.createFile, Step.download, Step.extract])
  | .ok _ =>
  match env.self_replace with
  | .error e =>
    (.error e,
      [Step.createWorkspace, Step.createFile, Step.download, Step.extract, Step.replaceExe])
  | .ok _ =>
    (.ok (.updated release),
      [Step.createWorkspace, Step.createFile, Step.download, Step.extract, Step.replaceExe,
        Step.exeReplaced])

/-- Src lines 174-212: asset selection, confirmation, then
`fetch_extract_replace`, with the step lists concatenated in run order. -/
def update_with_release (env : UpdateEnv) (release : Release) : Tr UpdateStatus :=
  match get_target_asset_from_release env.target env.archive_extension release with
  | .error e => (.error e, [Step.selectAsset])
  | .ok asset =>
    match confirm_step env with
    | (.error e, tr) => (.error e, Step.selectAsset :: tr)
    | (.ok _, tr) =>
      let rest := fetch_extract_replace env release asset
      (rest.1, Step.selectAsset :: (tr ++ rest.2))

/-- `perform_update` (src lines 143-213): resolve the target release (latest
when no tag is pinned, otherwise the tagged release), return `UpToDate`
early when the latest release is not strictly newer (latest path) or the
tagged release's version equals the current one (tag path); otherwise run
the remaining update pipeline. -/
def perform_update (env : UpdateEnv) : Tr UpdateStatus :=
  match env.tag with
  | none =>
    match env.get_latest_release with
    | .error e => (.error e, [Step.getLatestRelease])
    | .ok latest_release =>
      match env.bump_is_greater env.current_version latest_release.version with
      | .error e => (.error e, [Step.getLatestRelease])
      | .ok g =>
        if !g then
          (.ok .upToDate, [Step.getLatestRelease])
        else
          match env.bump_is_compatible env.current_version latest_release.version with
          | .error e => (.error e, [Step.getLatestRelease])
          | .ok _ =>
            let rest := update_with_release env latest_release
            (rest.1, Step.getLatestRelease :: rest.2)
  | some v =>
    match env.get_release_version v with
    | .error e => (.error e, [Step.getReleaseVersion])
    | .ok version_release =>
      if version_release.version == env.current_version then
        (.ok .upToDate, [Step.getReleaseVersion])
      else
        let rest := update_with_release env version_release
        (rest.1, Step.getReleaseVersion :: rest.2)

/-- The `--check` branch of `execute` (src lines 90-122): resolution and
comparison only, reporting through the exit code; no guard, no workspace,
no download. -/
def check_mode (env : UpdateEnv) : Tr ExitCode :=
  match env.tag with
  | none =>
    match env.get_latest_release with
    | .error e => (.error e, [Step.getLatestRelease])
    | .ok latest_release =>
      match env.bump_is_greater env.current_version latest_release.version with
      | .error e => (.error e, [Step.getLatestRelease])
      | .ok g =>
        if !g then
          (.ok .success, [Step.getLatestRelease])
        else
          match env.bump_is_compatible env.current_version latest_release.version with
          | .error e => (.error e, [Step.getLatestRelease])
          | .ok _ => (.ok .failure, [Step.getLatestRelease])
  | some v =>
    match env.get_release_version v with
    | .error e => (.error e, [Step.getReleaseVersion])
    | .ok version_release =>
      if version_release.version == env.current_version then
        (.ok .success, [Step.getReleaseVersion])
      else
        (.ok .failure, [Step.getReleaseVersion])

/-- The command-line request (`SelfUpdateCommand`, src lines 42-64). -/
structure SelfUpdateCommand where
  check : Bool
  no_confirm : Bool
  tag : Option String
deriving DecidableEq

/-- `execute` (src lines 66-141): wire the request into the builder
(src lines 67-79), then either check mode, or — in apply mode — the
Homebrew guard (refusing with exit failure and the redirect warning,
src lines 124-127) followed by `perform_update`; any status from a
completed update yields exit success (src lines 131-140). -/
def execute (cmd : SelfUpdateCommand) (env0 : UpdateEnv) : Tr ExitCode :=
  let env := { env0 with tag := cmd.tag, no_confirm := cmd.no_confirm }
  if cmd.check then
    check_mode env
  else if is_homebrew_install env.guard then
    (.ok .failure, [Step.guardCheck, Step.warnHomebrewRedirect])
  else
    let rest := perform_update env
    match rest.1 with
    | .error e => (.error e, Step.guardCheck :: rest.2)
    | .ok _ => (.ok .success, Step.guardCheck :: rest.2)

/-- A guard environment for a plainly-installed executable
(`/usr/local/bin/mago`, nothing canonicalizable, no Homebrew variables). -/
def cleanGuard : GuardEnv where
  current_exe := some [.rootDir, .normal "usr", .normal "local", .normal "bin", .normal "mago"]
  canonicalize := fun _ => none
  homebrew_prefix := none
  homebrew_cellar := none
  homebrew_repository := none

/-- A guard environment for a Homebrew Cellar executable. -/
def brewGuard : GuardEnv where
  current_exe := some [.rootDir, .normal "opt", .normal "homebrew", .normal "Cellar",
    .normal "mago", .normal "1.0.0", .normal "bin", .normal "mago"]
  canonicalize := fun _ => none
  homebrew_prefix := none
  homebrew_cellar := none
  homebrew_repository := none

/-- A release asset whose name matches target `tgt` and extension
`.tar.gz`. -/
def sampleAsset : ReleaseAsset where
  name := "mago-0.9.0-tgt.tar.gz"
  download_url := "https://example.invalid/mago-0.9.0-tgt.tar.gz"

/-- A concrete release older than the sample current version `1.0.0`. -/
def rel09 : Release where
  version := "0.9.0"
  assets := [sampleAsset]

/-- A fully successful oracle environment pinned to tag `0.9.0`, whose
comparison oracle reports that `0.9.0` is not newer than the current
`1.0.0`. -/
def okEnv : UpdateEnv where
  current_version := "1.0.0"
  target := "tgt"
  archive_extension := ".tar.gz"
  bin := "mago"
  tag := some "0.9.0"
  no_confirm := true
  get_latest_release := Except.ok rel09
  get_release_version := fun _ => Except.ok rel09
  bump_is_greater := fun _ _ => Except.ok false
  bump_is_compatible := fun _ _ => Except.ok true
  stdin_line := Except.ok "y"
  create_workspace := Except.ok ()
  create_file := fun _ => Except.ok ()
  api_headers := Except.ok ()
  download := fun _ => Except.ok ()
  extract := fun _ => Except.ok ()
  self_replace := Except.ok ()
  guard := cleanGuard

/-- `okEnv` with a Homebrew-managed executable. -/
def brewEnv : UpdateEnv :=
  { okEnv with guard := brewGuard }

/-- An apply-mode request targeting the latest release, confirmations
suppressed. -/
def applyCmd : SelfUpdateCommand where
  check := false
  no_confirm := true
  tag := none

/-- A check-mode request pinned to tag `0.9.0`. -/
def checkTagCmd : SelfUpdateCommand where
  check := true
  no_confirm := true
  tag := some "0.9.0"

/-- The spec's reading of the Cellar heuristic: the normal-component
sequence contains a `Cellar` component immediately followed by the product
name `mago` or a `mago@`-versioned form. -/
def CellarMarker (p : RPath) : Prop :=
  ∃ pre x post, normalComponents p = pre ++ "Cellar" :: x :: post ∧
    (x = "mago" ∨ "mago@".data <+: x.data)

/-- The release the run resolved: the latest release when no tag is pinned,
the tagged release otherwise; `none` when resolution failed. -/
def resolved_release (env : UpdateEnv) : Option Release :=
  match env.tag with
  | none =>
    match env.get_latest_release with
    | .ok r => some r
    | .error _ => none
  | some v =>
    match env.get_release_version v with
    | .ok r => some r
    | .error _ => none

/-- A guard environment in which the current executable path cannot be
resolved from the operating system. -/
def noExeGuard : GuardEnv where
  current_exe := none
  canonicalize := fun _ => none
  homebrew_prefix := none
  homebrew_cellar := none
  homebrew_repository := none

/-- Example path `/opt/homebrew/Cellar/mago/1.0.0/bin/mago`. -/
def cellarExamplePath : RPath :=
  [.rootDir, .normal "opt", .normal "homebrew", .normal "Cellar", .normal "mago",
    .normal "1.0.0", .normal "bin", .normal "mago"]

/-- Example versioned-formula path
`/opt/homebrew/Cellar/mago@8/8.0/bin/mago`. -/
def versionedCellarPath : RPath :=
  [.rootDir, .normal "opt", .normal "homebrew", .normal "Cellar", .normal "mago@8",
    .normal "8.0", .normal "bin", .normal "mago"]

/-- Example symlink path `/opt/homebrew/bin/mago`. -/
def brewLinkPath : RPath :=
  [.rootDir, .normal "opt", .normal "homebrew", .normal "bin", .normal "mago"]

/-- Example registered root `/opt/homebrew`. -/
def brewRootPath : RPath :=
  [.rootDir, .normal "opt", .normal "homebrew"]

/-- Example path `/usr/local/bin/mago`. -/
def usrLocalPath : RPath :=
  [.rootDir, .normal "usr", .normal "local", .normal "bin", .normal "mago"]

/-- A release whose version equals the sample current version `1.0.0`. -/
def rel10 : Release where
  version := "1.0.0"
  assets := []

/-- `okEnv` whose pinned tag resolves to a release already at the current
version. -/
def tagEqEnv : UpdateEnv :=
  { okEnv with get_release_version := fun _ => Except.ok rel10 }

/-- The canonical step sequence of the download/extract/replace pipeline. -/
def ferSteps : List Step :=
  [Step.createWorkspace, Step.createFile, Step.download, Step.extract, Step.replaceExe,
    Step.exeReplaced]

/-- The canonical full step sequence of an apply run that passes the guard:
resolution (by tag or latest), asset selection, the optional confirmation,
then the download/extract/replace pipeline. -/
def perform_step_order (tagged no_confirm : Bool) : List Step :=
  (if tagged then [Step.getReleaseVersion] else [Step.getLatestRelease])
    ++ [Step.selectAsset]
    ++ (if no_confirm then [] else [Step.confirmPrompt])
    ++ ferSteps

theorem cellar_scan_iff (l : List String) : ∀ prev, cellar_scan prev l = true ↔
    ((prev = some "Cellar" ∧ ∃ x post, l = x :: post ∧ (x = "mago" ∨ "mago@".data <+: x.data))
      ∨ ∃ pre x post, l = pre ++ "Cellar" :: x :: post ∧
          (x = "mago" ∨ "mago@".data <+: x.data)) := by
  induction l with
  | nil =>
    intro prev
    simp [cellar_scan]
  | cons a l ih =>
    intro prev
    simp only [cellar_scan]
    by_cases hc :
        (prev == some "Cellar" && (a == "mago" || "mago@".data.isPrefixOf a.data)) = true
    · rw [if_pos hc]
      simp only [Bool.and_eq_true, Bool.or_eq_true, beq_iff_eq] at hc
      obtain ⟨hprev, ha⟩ := hc
      have ha' : a = "mago" ∨ "mago@".data <+: a.data := by
        rcases ha with h | h
        · exact Or.inl h
        · exact Or.inr (List.isPrefixOf_iff_prefix.mp h)
      simp only [true_iff]
      exact Or.inl ⟨hprev, a, l, rfl, ha'⟩
    · rw [if_neg hc]
      rw [ih (some a)]
      constructor
      · rintro (⟨ha, x, post, hl, hx⟩ | ⟨pre, x, post, hl, hx⟩)
        · refine Or.inr ⟨[], x, post, ?_, hx⟩
          have : a = "Cellar" := by injection ha
          simp [this, hl]
        · exact Or.inr ⟨a :: pre, x, post, by simp [hl], hx⟩
      · rintro (⟨hprev, x, post, hl, hx⟩ | ⟨pre, x, post, hl, hx⟩)
        · exfalso
          apply hc
          obtain ⟨rfl, rfl⟩ : a = x ∧ l = post := by
            constructor <;> injection hl
          simp only [Bool.and_eq_true, Bool.or_eq_true, beq_iff_eq]
          refine ⟨hprev, ?_⟩
          rcases hx with h | h
          · exact Or.inl h
          · exact Or.inr (List.isPrefixOf_iff_prefix.mpr h)
        · cases pre with
          | nil =>
            obtain ⟨rfl, rfl⟩ : a = "Cellar" ∧ l = x :: post := by
              constructor <;> injection hl
            exact Or.inl ⟨rfl, x, post, rfl, hx⟩
          | cons p pre' =>
            obtain ⟨rfl, rfl⟩ : a = p ∧ l = pre' ++ "Cellar" :: x :: post := by
              constructor <;> injection hl
            exact Or.inr ⟨pre', x, post, rfl, hx⟩

theorem is_homebrew_cellar_path_iff (p : RPath) :
    is_homebrew_cellar_path p = true ↔ CellarMarker p := by
  rw [is_homebrew_cellar_path, cellar_scan_iff, CellarMarker]
  simp

theorem detect_homebrew_install_iff (paths roots : List RPath)
    (hroots : ∀ r ∈ roots, r ≠ []) :
    detect_homebrew_install paths roots = true ↔
      (∃ p ∈ paths, CellarMarker p) ∨ (∃ p ∈ paths, ∃ r ∈ roots, r <+: p) := by
  rw [detect_homebrew_install]
  simp only [List.any_eq_true, Bool.or_eq_true, Bool.and_eq_true]
  constructor
  · rintro ⟨p, hp, hcell | ⟨r, hr, _, hpre⟩⟩
    · exact Or.inl ⟨p, hp, (is_homebrew_cellar_path_iff p).mp hcell⟩
    · exact Or.inr ⟨p, hp, r, hr, List.isPrefixOf_iff_prefix.mp hpre⟩
  · rintro (⟨p, hp, hcell⟩ | ⟨p, hp, r, hr, hpre⟩)
    · exact ⟨p, hp, Or.inl ((is_homebrew_cellar_path_iff p).mpr hcell)⟩
    · refine ⟨p, hp, Or.inr ⟨r, hr, ?_, List.isPrefixOf_iff_prefix.mpr hpre⟩⟩
      simp [List.isEmpty_iff, hroots r hr]

/-- C4: the install guard's detection predicate holds exactly when (a) some
candidate path's normal-component sequence has a `Cellar` component
immediately followed by `mago` or a `mago@`-prefixed component, or (b) when
some candidate path is component-wise nested under a registered (non-empty)
root; and the four example paths of the testable-properties section yield
true, true, true, false. -/
theorem C4_detect_homebrew_characterization :
    (∀ (paths roots : List RPath), (∀ r ∈ roots, r ≠ []) →
      (detect_homebrew_install paths roots = true ↔
        (∃ p ∈ paths, CellarMarker p) ∨ (∃ p ∈ paths, ∃ r ∈ roots, r <+: p)))
    ∧ detect_homebrew_install [cellarExamplePath] [] = true
    ∧ detect_homebrew_install [versionedCellarPath] [] = true
    ∧ detect_homebrew_install [brewLinkPath, cellarExamplePath] [brewRootPath] = true
    ∧ detect_homebrew_install [usrLocalPath] [] = false := by
  refine ⟨detect_homebrew_install_iff, ?_, ?_, ?_, ?_⟩ <;> decide

/-- C4 witness: the characterization instantiated at the Cellar example path
with the `/opt/homebrew` root registered. -/
theorem C4_detect_homebrew_characterization_witness :
    detect_homebrew_install [cellarExamplePath] [brewRootPath] = true ↔
      (∃ p ∈ [cellarExamplePath], CellarMarker p) ∨
        (∃ p ∈ [cellarExamplePath], ∃ r ∈ [brewRootPath], r <+: p) :=
  C4_detect_homebrew_characterization.1 [cellarExamplePath] [brewRootPath] (by decide)

/-- C10: when the operating system cannot report the current executable
path, the guard returns `false` (no refusal) instead of failing, so apply
mode proceeds as if no package manager were involved. -/
theorem C10_no_exe_path_guard_false :
    ∀ genv : GuardEnv, genv.current_exe = none → is_homebrew_install genv = false := by
  intro genv h
  rw [is_homebrew_install, h]

/-- C10 witness: the guard evaluated on a concrete environment with an
unresolvable executable path. -/
theorem C10_no_exe_path_guard_false_witness :
    is_homebrew_install noExeGuard = false :=
  C10_no_exe_path_guard_false noExeGuard rfl

theorem check_mode_steps (env : UpdateEnv) :
    (check_mode env).2 =
      [if env.tag.isSome then Step.getReleaseVersion else Step.getLatestRelease] := by
  rw [check_mode]
  rcases htag : env.tag with _ | v <;>
    simp only [htag, Option.isSome_none, Option.isSome_some, Bool.false_eq_true, if_false,
      if_true]
  · rcases hg : env.get_latest_release with e | latest <;> simp only [hg] <;> try rfl
    rcases hb : env.bump_is_greater env.current_version latest.version with e | g <;>
      simp only [hb] <;> try rfl
    cases g
    · rfl
    · rcases hc : env.bump_is_compatible env.current_version latest.version with e | c <;>
        simp only [hc] <;> rfl
  · rcases hg : env.get_release_version v with e | r <;> simp only [hg] <;> try rfl
    by_cases hv : (r.version == env.current_version) = true <;> simp [hv]

theorem confirm_step_steps (env : UpdateEnv) :
    (confirm_step env).2 = if env.no_confirm then [] else [Step.confirmPrompt] := by
  rw [confirm_step]
  cases h : env.no_confirm
  · simp only [Bool.false_eq_true, if_false]
    cases env.stdin_line <;> rfl
  · rfl

theorem fer_steps_ordered (env : UpdateEnv) (r : Release) (a : ReleaseAsset) :
    (fetch_extract_replace env r a).2 <+: ferSteps := by
  rw [fetch_extract_replace]
  repeat' split
  all_goals exact ⟨_, rfl⟩

theorem uwr_steps_ordered (env : UpdateEnv) (r : Release) :
    (update_with_release env r).2 <+:
      Step.selectAsset :: ((if env.no_confirm then [] else [Step.confirmPrompt]) ++ ferSteps) := by
  rw [update_with_release]
  split
  · exact ⟨_, rfl⟩
  · rename_i asset heq
    split
    · rename_i e tr hconf
      have htr : tr = if env.no_confirm then [] else [Step.confirmPrompt] := by
        have := confirm_step_steps env
        rw [hconf] at this
        exact this
      rw [List.cons_prefix_cons]
      exact ⟨rfl, htr ▸ List.prefix_append _ _⟩
    · rename_i u tr hconf
      have htr : tr = if env.no_confirm then [] else [Step.confirmPrompt] := by
        have := confirm_step_steps env
        rw [hconf] at this
        exact this
      rw [List.cons_prefix_cons]
      refine ⟨rfl, ?_⟩
      rw [htr]
      exact (List.prefix_append_right_inj _).mpr (fer_steps_ordered env r asset)

theorem perform_update_steps_ordered (env : UpdateEnv) :
    (perform_update env).2 <+: perform_step_order env.tag.isSome env.no_confirm := by
  rw [perform_update, perform_step_order]
  rcases htag : env.tag with _ | v <;>
    simp only [htag, Option.isSome_none, Option.isSome_some, Bool.false_eq_true, if_false,
      if_true]
  · rcases hg : env.get_latest_release with e | latest <;> simp only [hg] <;>
      try exact ⟨_, rfl⟩
    rcases hb : env.bump_is_greater env.current_version latest.version with e | g <;>
      simp only [hb] <;> try exact ⟨_, rfl⟩
    cases g
    · exact ⟨_, rfl⟩
    · simp only [Bool.not_true, Bool.false_eq_true, if_false]
      rcases hc : env.bump_is_compatible env.current_version latest.version with e | c <;>
        simp only [hc] <;> try exact ⟨_, rfl⟩
      simp only [List.cons_append, List.nil_append]
      rw [List.cons_prefix_cons]
      exact ⟨rfl, uwr_steps_ordered env latest⟩
  · rcases hg : env.get_release_version v with e | r <;> simp only [hg] <;>
      try exact ⟨_, rfl⟩
    by_cases hv : (r.version == env.current_version) = true
    · simp only [hv, if_true]
      exact ⟨_, rfl⟩
    · simp only [hv, Bool.false_eq_true, if_false]
      simp only [List.cons_append, List.nil_append]
      rw [List.cons_prefix_cons]
      exact ⟨rfl, uwr_steps_ordered env r⟩

theorem execute_apply_steps (cmd : SelfUpdateCommand) (env : UpdateEnv)
    (hc : cmd.check = false) :
    (execute cmd env).2 =
      Step.guardCheck ::
        (if is_homebrew_install env.guard then [Step.warnHomebrewRedirect]
         else (perform_update { env with tag := cmd.tag, no_confirm := cmd.no_confirm }).2) := by
  rw [execute]
  simp only [hc, Bool.false_eq_true, if_false]
  by_cases hg : is_homebrew_install env.guard = true
  · rw [if_pos hg]
    rw [if_pos hg]
  · rw [if_neg hg]
    rw [if_neg hg]
    split <;> rfl

theorem fer_not_upToDate (env : UpdateEnv) (r : Release) (a : ReleaseAsset) :
    (fetch_extract_replace env r a).1 ≠ .ok .upToDate := by
  rw [fetch_extract_replace]
  repeat' split
  all_goals simp

theorem uwr_not_upToDate (env : UpdateEnv) (r : Release) :
    (update_with_release env r).1 ≠ .ok .upToDate := by
  rw [update_with_release]
  split
  · simp
  · rename_i asset heq
    split
    · simp
    · exact fer_not_upToDate env r asset

/-- C3 (amended): with no pinned tag, `perform_update` terminates early with
`UpToDate` — performing only the resolution step, so no asset selection,
workspace, download, extraction or replacement — exactly when the
comparison reports the latest release is not strictly newer; with a pinned
tag, the `UpToDate` outcome happens exactly when the resolved release's
version equals the running version, so a pinned release that is older (not
newer) still proceeds with the update. -/
theorem C3_up_to_date_early_exit :
    (∀ (env : UpdateEnv) (r : Release), env.tag = none →
      env.get_latest_release = .ok r →
      ((perform_update env).1 = .ok .upToDate ↔
        env.bump_is_greater env.current_version r.version = .ok false))
    ∧ (∀ (env : UpdateEnv) (r : Release), env.tag = none →
      env.get_latest_release = .ok r →
      env.bump_is_greater env.current_version r.version = .ok false →
      perform_update env = (.ok .upToDate, [Step.getLatestRelease]))
    ∧ (∀ (env : UpdateEnv) (v : String) (r : Release), env.tag = some v →
      env.get_release_version v = .ok r →
      ((perform_update env).1 = .ok .upToDate ↔ r.version = env.current_version))
    ∧ (∀ (env : UpdateEnv) (v : String) (r : Release), env.tag = some v →
      env.get_release_version v = .ok r →
      r.version = env.current_version →
      perform_update env = (.ok .upToDate, [Step.getReleaseVersion])) := by
  refine ⟨?_, ?_, ?_, ?_⟩
  · intro env r htag hget
    constructor
    · intro h
      rcases hb : env.bump_is_greater env.current_version r.version with e | g
      · have hres : (perform_update env).1 = .error e := by
          simp [perform_update, htag, hget, hb]
        rw [hres] at h
        exact absurd h (by simp)
      · cases g
        · rfl
        · rcases hc : env.bump_is_compatible env.current_version r.version with e | c
          · have hres : (perform_update env).1 = .error e := by
              simp [perform_update, htag, hget, hb, hc]
            rw [hres] at h
            exact absurd h (by simp)
          · have hres : (perform_update env).1 = (update_with_release env r).1 := by
              simp [perform_update, htag, hget, hb, hc]
            rw [hres] at h
            exact absurd h (uwr_not_upToDate env r)
    · intro hcmp
      simp [perform_update, htag, hget, hcmp]
  · intro env r htag hget hcmp
    simp [perform_update, htag, hget, hcmp]
  · intro env v r htag hget
    constructor
    · intro h
      by_cases hv : (r.version == env.current_version) = true
      · exact beq_iff_eq.mp hv
      · have hres : (perform_update env).1 = (update_with_release env r).1 := by
          simp [perform_update, htag, hget, hv]
        rw [hres] at h
        exact absurd h (uwr_not_upToDate env r)
    · intro hver
      simp [perform_update, htag, hget, hver]
  · intro env v r htag hget hver
    simp [perform_update, htag, hget, hver]

/-- C3 witness: a pinned tag resolving to the running version terminates
early with `UpToDate`, with resolution as the only performed step, and the
pinned biconditional instantiates there. -/
theorem C3_up_to_date_early_exit_witness :
    perform_update tagEqEnv = (.ok .upToDate, [Step.getReleaseVersion])
    ∧ ((perform_update tagEqEnv).1 = .ok .upToDate ↔
        rel10.version = tagEqEnv.current_version) :=
  ⟨C3_up_to_date_early_exit.2.2.2 tagEqEnv "0.9.0" rel10 rfl rfl rfl,
    C3_up_to_date_early_exit.2.2.1 tagEqEnv "0.9.0" rel10 rfl rfl⟩

/-- C3 counterexample: a pinned release that is not newer than the running
version (the comparison oracle reports `0.9.0` not greater than `1.0.0`)
does not terminate early: the run downloads, extracts and replaces,
reporting `Updated`. -/
theorem C3_pinned_older_proceeds_counterexample :
    okEnv.bump_is_greater okEnv.current_version rel09.version = .ok false
    ∧ rel09.version ≠ okEnv.current_version
    ∧ perform_update okEnv =
        (.ok (.updated rel09),
         [Step.getReleaseVersion, Step.selectAsset, Step.createWorkspace, Step.createFile,
          Step.download, Step.extract, Step.replaceExe, Step.exeReplaced])
    ∧ Step.download ∈ (perform_update okEnv).2 := by
  refine ⟨rfl, by decide, by decide, by decide⟩

/-- C5: in apply mode, whenever the install guard triggers, the command
returns the failure exit code with only the guard check and the Homebrew
redirect warning performed: no workspace is created and no download is
initiated. -/
theorem C5_guard_refusal_no_side_effects :
    ∀ (cmd : SelfUpdateCommand) (env : UpdateEnv), cmd.check = false →
      is_homebrew_install env.guard = true →
      execute cmd env = (.ok .failure, [Step.guardCheck, Step.warnHomebrewRedirect])
      ∧ Step.warnHomebrewRedirect ∈ (execute cmd env).2
      ∧ Step.createWorkspace ∉ (execute cmd env).2
      ∧ Step.download ∉ (execute cmd env).2 := by
  intro cmd env hc hg
  have hx : execute cmd env = (.ok .failure, [Step.guardCheck, Step.warnHomebrewRedirect]) := by
    rw [execute]
    simp only [hc, Bool.false_eq_true, if_false]
    simp [hg]
  refine ⟨hx, ?_, ?_, ?_⟩ <;> rw [hx] <;> decide

/-- C5 witness: the guard refusal on a concrete Homebrew-Cellar install. -/
theorem C5_guard_refusal_no_side_effects_witness :
    execute applyCmd brewEnv = (.ok .failure, [Step.guardCheck, Step.warnHomebrewRedirect])
    ∧ Step.warnHomebrewRedirect ∈ (execute applyCmd brewEnv).2
    ∧ Step.createWorkspace ∉ (execute applyCmd brewEnv).2
    ∧ Step.download ∉ (execute applyCmd brewEnv).2 :=
  C5_guard_refusal_no_side_effects applyCmd brewEnv rfl (by decide)

/-- C8 (amended): in check mode with the latest target, the exit code is 0
exactly when the latest release is not strictly newer and 1 when it is
newer; with a pinned tag, the exit code is 0 exactly when the resolved
version equals the running version and 1 otherwise — in particular a pinned
release that is older (not newer) still exits 1. -/
theorem C8_check_mode_exit_codes :
    (∀ (cmd : SelfUpdateCommand) (env : UpdateEnv) (r : Release), cmd.check = true →
      cmd.tag = none → env.get_latest_release = .ok r →
      env.bump_is_greater env.current_version r.version = .ok false →
      execute cmd env = (.ok .success, [Step.getLatestRelease]))
    ∧ (∀ (cmd : SelfUpdateCommand) (env : UpdateEnv) (r : Release) (c : Bool),
      cmd.check = true → cmd.tag = none → env.get_latest_release = .ok r →
      env.bump_is_greater env.current_version r.version = .ok true →
      env.bump_is_compatible env.current_version r.version = .ok c →
      execute cmd env = (.ok .failure, [Step.getLatestRelease]))
    ∧ (∀ (cmd : SelfUpdateCommand) (env : UpdateEnv) (v : String) (r : Release),
      cmd.check = true → cmd.tag = some v → env.get_release_version v = .ok r →
      r.version = env.current_version →
      execute cmd env = (.ok .success, [Step.getReleaseVersion]))
    ∧ (∀ (cmd : SelfUpdateCommand) (env : UpdateEnv) (v : String) (r : Release),
      cmd.check = true → cmd.tag = some v → env.get_release_version v = .ok r →
      r.version ≠ env.current_version →
      execute cmd env = (.ok .failure, [Step.getReleaseVersion])) := by
  refine ⟨?_, ?_, ?_, ?_⟩
  · intro cmd env r hc ht hget hcmp
    simp [execute, check_mode, hc, ht, hget, hcmp]
  · intro cmd env r c hc ht hget hcmp hcompat
    simp [execute, check_mode, hc, ht, hget, hcmp, hcompat]
  · intro cmd env v r hc ht hget hver
    simp [execute, check_mode, hc, ht, hget, hver]
  · intro cmd env v r hc ht hget hver
    simp [execute, check_mode, hc, ht, hget, hver]

/-- C8 witness: check mode on a pinned tag resolving to the running version
exits 0. -/
theorem C8_check_mode_exit_codes_witness :
    execute checkTagCmd tagEqEnv = (.ok .success, [Step.getReleaseVersion]) :=
  C8_check_mode_exit_codes.2.2.1 checkTagCmd tagEqEnv "0.9.0" rel10 rfl rfl rfl rfl

/-- C8 counterexample: in check mode pinned to `0.9.0` while running
`1.0.0`, the resolved release is not newer than the running version (the
comparison oracle reports not-greater), yet the process exits 1, not 0:
the pinned path tests version equality, not newness. -/
theorem C8_pinned_not_newer_exits_one_counterexample :
    okEnv.bump_is_greater okEnv.current_version rel09.version = .ok false
    ∧ execute checkTagCmd okEnv = (.ok .failure, [Step.getReleaseVersion])
    ∧ (execute checkTagCmd okEnv).1 ≠ .ok .success := by
  refine ⟨rfl, by decide, by decide⟩

/-- C6: asset selection returns the first asset in the release's published
order whose name contains the target triple and ends with the archive
extension, and fails with the no-asset error exactly when no asset matches;
being a function of the release, it selects at most one asset per release.
-/
theorem C6_asset_selection :
    ∀ (target ext : String) (release : Release),
      (∀ a : ReleaseAsset,
        get_target_asset_from_release target ext release = .ok a ↔
          asset_matches target ext a = true ∧
          ∃ pre post, release.assets = pre ++ a :: post ∧
            ∀ b ∈ pre, asset_matches target ext b = false)
      ∧ ((∃ e, get_target_asset_from_release target ext release = .error e) ↔
          ∀ a ∈ release.assets, asset_matches target ext a = false) := by
  intro target ext release
  constructor
  · intro a
    rw [get_target_asset_from_release]
    cases hf : release.assets.find? (asset_matches target ext) with
    | none =>
      simp only []
      constructor
      · intro h
        exact absurd h (by simp)
      · rintro ⟨hm, pre, post, hl, _⟩
        exfalso
        have ha : a ∈ release.assets := by
          rw [hl]
          exact List.mem_append.mpr (Or.inr (List.mem_cons_self a post))
        exact (List.find?_eq_none.mp hf a ha) hm
    | some b =>
      simp only []
      obtain ⟨hpb, as, bs, hlb, hprev⟩ := List.find?_eq_some.mp hf
      constructor
      · intro h
        have hba : b = a := by
          injection h
        subst hba
        refine ⟨hpb, as, bs, hlb, ?_⟩
        intro x hx
        have := hprev x hx
        rwa [Bool.not_eq_true'] at this
      · rintro ⟨hm, pre, post, hl, hpre⟩
        have hfa : release.assets.find? (asset_matches target ext) = some a := by
          rw [hl, List.find?_append]
          have h1 : pre.find? (asset_matches target ext) = none :=
            List.find?_eq_none.mpr (fun x hx => by simp [hpre x hx])
          rw [h1, List.find?_cons_of_pos post hm]
          rfl
        rw [hf] at hfa
        injection hfa with hba
        rw [hba]
  · cases hf : release.assets.find? (asset_matches target ext) with
    | none =>
      rw [get_target_asset_from_release, hf]
      simp only []
      constructor
      · intro _
        intro a ha
        exact Bool.eq_false_iff.mpr (List.find?_eq_none.mp hf a ha)
      · intro _
        exact ⟨_, rfl⟩
    | some b =>
      rw [get_target_asset_from_release, hf]
      simp only []
      constructor
      · rintro ⟨e, he⟩
        exact absurd he (by simp)
      · intro h
        exfalso
        have h1 := h b (List.mem_of_find?_eq_some hf)
        have h2 := List.find?_some hf
        rw [h1] at h2
        exact Bool.false_ne_true h2

/-- C6 witness: the characterization instantiated at the sample platform
and release, for the asset it selects. -/
theorem C6_asset_selection_witness :
    get_target_asset_from_release "tgt" ".tar.gz" rel09 = .ok sampleAsset ↔
      asset_matches "tgt" ".tar.gz" sampleAsset = true ∧
      ∃ pre post, rel09.assets = pre ++ sampleAsset :: post ∧
        ∀ b ∈ pre, asset_matches "tgt" ".tar.gz" b = false :=
  (C6_asset_selection "tgt" ".tar.gz" rel09).1 sampleAsset

theorem fer_commit (env : UpdateEnv) (r : Release) (a : ReleaseAsset) :
    Step.exeReplaced ∈ (fetch_extract_replace env r a).2 ↔
      (fetch_extract_replace env r a).1 = .ok (.updated r) := by
  rw [fetch_extract_replace]
  repeat' split
  all_goals simp

theorem uwr_commit (env : UpdateEnv) (r : Release) :
    Step.exeReplaced ∈ (update_with_release env r).2 ↔
      (update_with_release env r).1 = .ok (.updated r) := by
  rw [update_with_release]
  split
  · simp
  · rename_i asset heq
    split
    · rename_i e tr hconf
      have htr : tr = if env.no_confirm then [] else [Step.confirmPrompt] := by
        have := confirm_step_steps env
        rw [hconf] at this
        exact this
      cases hnc : env.no_confirm <;> simp [htr, hnc]
    · rename_i u tr hconf
      have htr : tr = if env.no_confirm then [] else [Step.confirmPrompt] := by
        have := confirm_step_steps env
        rw [hconf] at this
        exact this
      have hmem : Step.exeReplaced ∈ Step.selectAsset :: (tr ++ (fetch_extract_replace env r asset).2) ↔
          Step.exeReplaced ∈ (fetch_extract_replace env r asset).2 := by
        cases hnc : env.no_confirm <;> simp [htr, hnc]
      simp only [hmem]
      exact fer_commit env r asset

theorem pu_commit (env : UpdateEnv) :
    Step.exeReplaced ∈ (perform_update env).2 ↔
      ∃ r, (perform_update env).1 = .ok (.updated r) ∧ resolved_release env = some r := by
  rw [perform_update, resolved_release]
  rcases htag : env.tag with _ | v <;> simp only [htag]
  · rcases hg : env.get_latest_release with e | latest <;> simp only [hg]
    · simp
    · rcases hb : env.bump_is_greater env.current_version latest.version with e | g <;>
        simp only [hb]
      · simp
      · cases g
        · simp
        · simp only [Bool.not_true, Bool.false_eq_true, if_false]
          rcases hc : env.bump_is_compatible env.current_version latest.version with e | c <;>
            simp only [hc]
          · simp
          · constructor
            · intro h
              refine ⟨latest, ?_, rfl⟩
              have h2 : Step.exeReplaced ∈ (update_with_release env latest).2 := by
                simpa using h
              have h3 := (uwr_commit env latest).mp h2
              exact h3
            · rintro ⟨r, h1, h2⟩
              have hlr : latest = r := by
                injection h2
              subst hlr
              have h1' : (update_with_release env latest).1 = .ok (.updated latest) := h1
              have h4 := (uwr_commit env latest).mpr h1'
              show Step.exeReplaced ∈ Step.getLatestRelease :: (update_with_release env latest).2
              exact List.mem_cons_of_mem _ h4
  · rcases hg : env.get_release_version v with e | r <;> simp only [hg]
    · simp
    · by_cases hv : (r.version == env.current_version) = true
      · simp [hv]
      · simp only [hv, Bool.false_eq_true, if_false]
        constructor
        · intro h
          refine ⟨r, ?_, rfl⟩
          have h2 : Step.exeReplaced ∈ (update_with_release env r).2 := by
            simpa using h
          exact (uwr_commit env r).mp h2
        · rintro ⟨r', h1, h2⟩
          have hrr : r = r' := by
            injection h2
          subst hrr
          have h1' : (update_with_release env r).1 = .ok (.updated r) := h1
          have h4 := (uwr_commit env r).mpr h1'
          show Step.exeReplaced ∈ Step.getReleaseVersion :: (update_with_release env r).2
          exact List.mem_cons_of_mem _ h4

/-- C9: executable replacement is the sole commit point: whenever any step
of the apply pipeline fails, the swap never happened (`exeReplaced` is not
among the performed steps, so the file backing the running executable is
untouched); and whenever the swap has happened, the run reports
`UpdateStatus::Updated` with the resolved release. -/
theorem C9_replace_sole_commit_point :
    ∀ env : UpdateEnv,
      ((∃ e, (perform_update env).1 = .error e) → Step.exeReplaced ∉ (perform_update env).2)
      ∧ (Step.exeReplaced ∈ (perform_update env).2 →
          ∃ r, (perform_update env).1 = .ok (.updated r) ∧ resolved_release env = some r) := by
  intro env
  constructor
  · rintro ⟨e, he⟩ hmem
    obtain ⟨r, h1, _⟩ := (pu_commit env).mp hmem
    rw [he] at h1
    exact absurd h1 (by simp)
  · exact (pu_commit env).mp

/-- C9 witness: a fully successful run has performed the swap and reports
`Updated` with the release its pinned tag resolved to. -/
theorem C9_replace_sole_commit_point_witness :
    Step.exeReplaced ∈ (perform_update okEnv).2 ∧
      ∃ r, (perform_update okEnv).1 = .ok (.updated r) ∧ resolved_release okEnv = some r :=
  ⟨by decide, (C9_replace_sole_commit_point okEnv).2 (by decide)⟩

theorem uwr_cw_confirm (env : UpdateEnv) (r : Release) :
    Step.createWorkspace ∈ (update_with_release env r).2 → (confirm_step env).1 = .ok () := by
  rw [update_with_release]
  split
  · intro h
    simp at h
  · rename_i asset heq
    split
    · rename_i e tr hconf
      intro h
      exfalso
      have htr : tr = if env.no_confirm then [] else [Step.confirmPrompt] := by
        have := confirm_step_steps env
        rw [hconf] at this
        exact this
      cases hnc : env.no_confirm <;> rw [hnc] at htr <;> simp [htr] at h
    · rename_i u tr hconf
      intro _
      rw [hconf]

theorem fer_dl_ws (env : UpdateEnv) (r : Release) (a : ReleaseAsset) :
    Step.download ∈ (fetch_extract_replace env r a).2 → env.create_workspace = .ok () := by
  rw [fetch_extract_replace]
  cases hcw : env.create_workspace with
  | error e =>
    simp only [hcw]
    intro h
    simp at h
  | ok u =>
    intro _
    rfl

theorem uwr_dl_ws (env : UpdateEnv) (r : Release) :
    Step.download ∈ (update_with_release env r).2 → env.create_workspace = .ok () := by
  rw [update_with_release]
  split
  · intro h
    simp at h
  · rename_i asset heq
    split
    · rename_i e tr hconf
      intro h
      exfalso
      have htr : tr = if env.no_confirm then [] else [Step.confirmPrompt] := by
        have := confirm_step_steps env
        rw [hconf] at this
        exact this
      cases hnc : env.no_confirm <;> rw [hnc] at htr <;> simp [htr] at h
    · rename_i u tr hconf
      intro h
      have htr : tr = if env.no_confirm then [] else [Step.confirmPrompt] := by
        have := confirm_step_steps env
        rw [hconf] at this
        exact this
      have h2 : Step.download ∈ (fetch_extract_replace env r asset).2 := by
        cases hnc : env.no_confirm <;> rw [hnc] at htr <;> simp [htr] at h <;> exact h
      exact fer_dl_ws env r asset h2

theorem pu_cw_confirm (env : UpdateEnv) :
    Step.createWorkspace ∈ (perform_update env).2 → (confirm_step env).1 = .ok () := by
  rw [perform_update]
  rcases htag : env.tag with _ | v <;> simp only [htag]
  · rcases hg : env.get_latest_release with e | latest <;> simp only [hg]
    · intro h
      simp at h
    · rcases hb : env.bump_is_greater env.current_version latest.version with e | g <;>
        simp only [hb]
      · intro h
        simp at h
      · cases g
        · intro h
          simp at h
        · simp only [Bool.not_true, Bool.false_eq_true, if_false]
          rcases hc : env.bump_is_compatible env.current_version latest.version with e | c <;>
            simp only [hc]
          · intro h
            simp at h
          · intro h
            have h2 : Step.createWorkspace ∈ (update_with_release env latest).2 := by
              simpa using h
            exact uwr_cw_confirm env latest h2
  · rcases hg : env.get_release_version v with e | r <;> simp only [hg]
    · intro h
      simp at h
    · by_cases hv : (r.version == env.current_version) = true
      · simp only [hv, if_true]
        intro h
        simp at h
      · simp only [hv, Bool.false_eq_true, if_false]
        intro h
        have h2 : Step.createWorkspace ∈ (update_with_release env r).2 := by
          simpa using h
        exact uwr_cw_confirm env r h2

theorem pu_dl_ws (env : UpdateEnv) :
    Step.download ∈ (perform_update env).2 → env.create_workspace = .ok () := by
  rw [perform_update]
  rcases htag : env.tag with _ | v <;> simp only [htag]
  · rcases hg : env.get_latest_release with e | latest <;> simp only [hg]
    · intro h
      simp at h
    · rcases hb : env.bump_is_greater env.current_version latest.version with e | g <;>
        simp only [hb]
      · intro h
        simp at h
      · cases g
        · intro h
          simp at h
        · simp only [Bool.not_true, Bool.false_eq_true, if_false]
          rcases hc : env.bump_is_compatible env.current_version latest.version with e | c <;>
            simp only [hc]
          · intro h
            simp at h
          · intro h
            have h2 : Step.download ∈ (update_with_release env latest).2 := by
              simpa using h
            exact uwr_dl_ws env latest h2
  · rcases hg : env.get_release_version v with e | r <;> simp only [hg]
    · intro h
      simp at h
    · by_cases hv : (r.version == env.current_version) = true
      · simp only [hv, if_true]
        intro h
        simp at h
      · simp only [hv, Bool.false_eq_true, if_false]
        intro h
        have h2 : Step.download ∈ (update_with_release env r).2 := by
          simpa using h
        exact uwr_dl_ws env r h2

/-- C2 (amended): in apply mode the install guard is evaluated first — it is
the head of every apply-mode run's step list, before version resolution; on
a guard pass the remaining steps follow the canonical strict order
(resolution, asset selection, optional confirmation, workspace, archive
file, download, extraction, replacement), every run's step list being a
prefix of that order; and a later pipeline step is performed only after its
predecessors succeeded (workspace creation only after the confirmation
gate passed or was skipped, download only after the workspace was
created). -/
theorem C2_apply_mode_step_order :
    (∀ (cmd : SelfUpdateCommand) (env : UpdateEnv), cmd.check = false →
      (execute cmd env).2.head? = some Step.guardCheck)
    ∧ (∀ (cmd : SelfUpdateCommand) (env : UpdateEnv), cmd.check = false →
      (execute cmd env).2 <+:
        Step.guardCheck ::
          (if is_homebrew_install env.guard then [Step.warnHomebrewRedirect]
           else perform_step_order cmd.tag.isSome cmd.no_confirm))
    ∧ (∀ env : UpdateEnv, Step.createWorkspace ∈ (perform_update env).2 →
        (confirm_step env).1 = .ok ())
    ∧ (∀ env : UpdateEnv, Step.download ∈ (perform_update env).2 →
        env.create_workspace = .ok ()) := by
  refine ⟨?_, ?_, pu_cw_confirm, pu_dl_ws⟩
  · intro cmd env hc
    rw [execute_apply_steps cmd env hc]
    rfl
  · intro cmd env hc
    rw [execute_apply_steps cmd env hc]
    by_cases hg : is_homebrew_install env.guard = true
    · rw [if_pos hg, if_pos hg]
    · rw [if_neg hg, if_neg hg]
      rw [List.cons_prefix_cons]
      exact ⟨rfl, perform_update_steps_ordered _⟩

/-- C2 witness: a concrete apply run starts with the guard check. -/
theorem C2_apply_mode_step_order_witness :
    (execute applyCmd okEnv).2.head? = some Step.guardCheck :=
  C2_apply_mode_step_order.1 applyCmd okEnv rfl

/-- C2 counterexample: on a Homebrew install, an apply run consists of
exactly the guard check and the redirect warning: the guard is evaluated,
yet version resolution never executes, refuting the claim that the guard
runs only after version resolution has produced a Continue outcome. -/
theorem C2_guard_before_resolution_counterexample :
    (execute applyCmd brewEnv).2 = [Step.guardCheck, Step.warnHomebrewRedirect]
    ∧ Step.guardCheck ∈ (execute applyCmd brewEnv).2
    ∧ Step.getLatestRelease ∉ (execute applyCmd brewEnv).2
    ∧ Step.getReleaseVersion ∉ (execute applyCmd brewEnv).2 := by
  refine ⟨by decide, by decide, by decide, by decide⟩

/-- C7: the confirmation gate trims and lowercases the read line, succeeds
exactly when the result is empty or `y` (so `""`, `"y"` and `"Y"` proceed),
fails with the user-cancelled error on every other line (such as `"n"`),
and is skipped entirely — no `confirmPrompt` step — when the no-confirm
flag is set. -/
theorem C7_confirmation_gate :
    (∀ line : String, confirm_prompt line = .ok () ↔
      (rustToLower (rustTrim line.data) = [] ∨ rustToLower (rustTrim line.data) = "y".data))
    ∧ (∀ line : String, confirm_prompt line ≠ .ok () →
        confirm_prompt line = .error (.selfUpdate (.update "User cancelled the update")))
    ∧ confirm_prompt "" = .ok ()
    ∧ confirm_prompt "y" = .ok ()
    ∧ confirm_prompt "Y" = .ok ()
    ∧ confirm_prompt "n" = .error (.selfUpdate (.update "User cancelled the update"))
    ∧ (∀ (cmd : SelfUpdateCommand) (env : UpdateEnv), cmd.no_confirm = true →
        Step.confirmPrompt ∉ (execute cmd env).2) := by
  refine ⟨?_, ?_, by decide, by decide, by decide, by decide, ?_⟩
  · intro line
    by_cases h1 : rustToLower (rustTrim line.data) = []
    · simp [confirm_prompt, h1]
    · by_cases h2 : rustToLower (rustTrim line.data) = "y".data
      · simp [confirm_prompt, h2]
      · simp [confirm_prompt, h1, h2, List.isEmpty_iff]
  · intro line h
    by_cases h1 : rustToLower (rustTrim line.data) = []
    · exact absurd (by simp [confirm_prompt, h1]) h
    · by_cases h2 : rustToLower (rustTrim line.data) = "y".data
      · exact absurd (by simp [confirm_prompt, h2]) h
      · simp [confirm_prompt, h1, h2, List.isEmpty_iff]
  · intro cmd env hnc
    by_cases hcheck : cmd.check = true
    · rw [execute]
      simp only [hcheck, if_true]
      rw [check_mode_steps]
      rcases htag : cmd.tag with _ | v <;> simp [htag]
    · have hc : cmd.check = false := by
        cases hcc : cmd.check
        · rfl
        · exact absurd hcc hcheck
      rw [execute_apply_steps cmd env hc]
      intro hmem
      rcases List.mem_cons.mp hmem with h | h
      · simp at h
      · by_cases hg : is_homebrew_install env.guard = true
        · rw [if_pos hg] at h
          simp at h
        · rw [if_neg hg] at h
          have hpre :=
            perform_update_steps_ordered { env with tag := cmd.tag, no_confirm := cmd.no_confirm }
          have h2 : Step.confirmPrompt ∈ perform_step_order cmd.tag.isSome cmd.no_confirm :=
            List.IsPrefix.mem h hpre
          rw [hnc] at h2
          rcases htag : cmd.tag with _ | v <;> rw [htag] at h2 <;>
            simp only [Option.isSome_none, Option.isSome_some] at h2 <;> revert h2 <;> decide

/-- C7 witness: the gate accepts `"Y"`, and a concrete apply run with the
no-confirm flag set performs no confirmation step. -/
theorem C7_confirmation_gate_witness :
    (confirm_prompt "Y" = .ok () ↔
      (rustToLower (rustTrim "Y".data) = [] ∨ rustToLower (rustTrim "Y".data) = "y".data))
    ∧ Step.confirmPrompt ∉ (execute applyCmd okEnv).2 :=
  ⟨C7_confirmation_gate.1 "Y", C7_confirmation_gate.2.2.2.2.2.2 applyCmd okEnv rfl⟩

theorem replaceAux_nil (pat rep : List Char) : replaceAux pat rep [] = [] := by
  simp [replaceAux]

theorem replaceAux_cons_neg (pat rep : List Char) (c : Char) (l : List Char)
    (h : ¬(pat ≠ [] ∧ pat.isPrefixOf (c :: l) = true)) :
    replaceAux pat rep (c :: l) = c :: replaceAux pat rep l := by
  rw [replaceAux]
  rw [dif_neg h]

theorem replaceAux_match_head (pat rep ys : List Char) (h : pat ≠ []) :
    replaceAux pat rep (pat ++ ys) = rep ++ replaceAux pat rep ys := by
  cases pat with
  | nil => exact absurd rfl h
  | cons c p' =>
    have hpre : (c :: p').isPrefixOf (c :: (p' ++ ys)) = true := by
      rw [List.isPrefixOf_iff_prefix, ← List.cons_append]
      exact List.prefix_append _ _
    rw [List.cons_append, replaceAux, dif_pos ⟨List.cons_ne_nil c p', hpre⟩]
    rw [← List.cons_append, List.drop_left]

theorem replaceAux_append_sep (pat rep ys : List Char) :
    ∀ xs : List Char,
      (∀ s ∈ xs.tails, s ≠ [] → s.isPrefixOf pat = false ∧ pat.isPrefixOf s = false) →
      replaceAux pat rep (xs ++ ys) = xs ++ replaceAux pat rep ys := by
  intro xs
  induction xs with
  | nil => intro _; simp
  | cons c xs' ih =>
    intro h
    have hs := h (c :: xs') (by rw [List.mem_tails]) (by simp)
    have hcond : ¬(pat ≠ [] ∧ pat.isPrefixOf (c :: (xs' ++ ys)) = true) := by
      rintro ⟨hne, hpre⟩
      have hp : pat <+: (c :: xs') ++ ys := by
        rw [List.cons_append]
        exact List.isPrefixOf_iff_prefix.mp hpre
      rcases le_or_lt pat.length (c :: xs').length with hle | hlt
      · have hps : pat <+: (c :: xs') :=
          List.prefix_of_prefix_length_le hp (List.prefix_append _ _) hle
        have := List.isPrefixOf_iff_prefix.mpr hps
        rw [hs.2] at this
        exact Bool.false_ne_true this
      · have hsp : (c :: xs') <+: pat :=
          List.prefix_of_prefix_length_le (List.prefix_append _ _) hp (le_of_lt hlt)
        have := List.isPrefixOf_iff_prefix.mpr hsp
        rw [hs.1] at this
        exact Bool.false_ne_true this
    rw [List.cons_append, replaceAux_cons_neg _ _ _ _ hcond]
    rw [ih fun s hmem hne =>
      h s (by rw [List.mem_tails] at hmem ⊢; exact hmem.trans (List.suffix_cons c xs')) hne]
    rw [List.cons_append]

theorem replaceAux_no_occ (pat rep : List Char) :
    ∀ xs : List Char, (∀ s ∈ xs.tails, pat.isPrefixOf s = false) →
      replaceAux pat rep xs = xs := by
  intro xs
  induction xs with
  | nil => intro _; simp [replaceAux]
  | cons c xs' ih =>
    intro h
    have hs := h (c :: xs') (by rw [List.mem_tails])
    have hcond : ¬(pat ≠ [] ∧ pat.isPrefixOf (c :: xs') = true) := by
      rintro ⟨_, hpre⟩
      rw [hs] at hpre
      exact Bool.false_ne_true hpre
    rw [replaceAux_cons_neg _ _ _ _ hcond]
    rw [ih]
    intro s hmem
    refine h s ?_
    rw [List.mem_tails] at hmem ⊢
    exact hmem.trans (List.suffix_cons c xs')

theorem replaceAux_skip_value (pat rep ys : List Char) (c : Char)
    (hh : pat.head? = some c) :
    ∀ v : List Char, c ∉ v → replaceAux pat rep (v ++ ys) = v ++ replaceAux pat rep ys := by
  intro v
  induction v with
  | nil => intro _; simp
  | cons d v' ih =>
    intro hcv
    have hcd : c ≠ d := by
      intro hcd
      exact hcv (hcd ▸ List.mem_cons_self d v')
    have hcond : ¬(pat ≠ [] ∧ pat.isPrefixOf (d :: (v' ++ ys)) = true) := by
      rintro ⟨hne, hpre⟩
      have hp := List.isPrefixOf_iff_prefix.mp hpre
      cases pat with
      | nil => exact hne rfl
      | cons c0 p0 =>
        have hc0 : c0 = c := by
          injection hh
        have := (List.cons_prefix_cons.mp hp).1
        exact hcd (by rw [← hc0, this])
    rw [List.cons_append, replaceAux_cons_neg _ _ _ _ hcond]
    rw [ih (fun hm => hcv (List.mem_cons_of_mem d hm))]
    rw [List.cons_append]

theorem resolve_binary_path_data (v t b : String)
    (hv : '\x7b' ∉ v.data) (ht : '\x7b' ∉ t.data) :
    (resolve_binary_path BIN_PATH_IN_ARCHIVE v t b).data =
      b.data ++ '-' :: (v.data ++ '-' :: (t.data ++ '/' :: b.data)) := by
  have hstart : (resolve_binary_path BIN_PATH_IN_ARCHIVE v t b).data =
      replaceAux btok.data b.data (replaceAux ttok.data t.data
        (replaceAux vtok.data v.data BIN_PATH_IN_ARCHIVE.data)) := rfl
  have hT : BIN_PATH_IN_ARCHIVE.data =
      "\x7b\x7b bin \x7d\x7d-".data ++
        (vtok.data ++ "-\x7b\x7b target \x7d\x7d/\x7b\x7b bin \x7d\x7d".data) := by decide
  rw [hstart, hT]
  rw [replaceAux_append_sep vtok.data v.data _ _ (by decide)]
  rw [replaceAux_match_head vtok.data v.data _ (by decide)]
  rw [replaceAux_no_occ vtok.data v.data _ (by decide)]
  have hA1 : "-\x7b\x7b target \x7d\x7d/\x7b\x7b bin \x7d\x7d".data =
      "-".data ++ (ttok.data ++ "/\x7b\x7b bin \x7d\x7d".data) := by decide
  rw [hA1]
  rw [replaceAux_append_sep ttok.data t.data _ "\x7b\x7b bin \x7d\x7d-".data (by decide)]
  rw [replaceAux_skip_value ttok.data t.data _ '\x7b' (by decide) v.data hv]
  rw [replaceAux_append_sep ttok.data t.data _ "-".data (by decide)]
  rw [replaceAux_match_head ttok.data t.data _ (by decide)]
  rw [replaceAux_no_occ ttok.data t.data _ (by decide)]
  have hA0 : "\x7b\x7b bin \x7d\x7d-".data = btok.data ++ "-".data := by decide
  have hA2 : "/\x7b\x7b bin \x7d\x7d".data = "/".data ++ (btok.data ++ []) := by decide
  rw [hA0, hA2, List.append_assoc]
  rw [replaceAux_match_head btok.data b.data _ (by decide)]
  rw [replaceAux_append_sep btok.data b.data _ "-".data (by decide)]
  rw [replaceAux_skip_value btok.data b.data _ '\x7b' (by decide) v.data hv]
  rw [replaceAux_append_sep btok.data b.data _ "-".data (by decide)]
  rw [replaceAux_skip_value btok.data b.data _ '\x7b' (by decide) t.data ht]
  rw [replaceAux_append_sep btok.data b.data _ "/".data (by decide)]
  rw [replaceAux_match_head btok.data b.data _ (by decide)]
  rw [replaceAux_nil]
  rw [show "-".data = ['-'] from rfl, show "/".data = ['/'] from rfl]
  simp

theorem subst_named_data (v t b : String) :
    (subst_named BIN_PATH_IN_ARCHIVE v t b).data =
      b.data ++ '-' :: (v.data ++ '-' :: (t.data ++ '/' :: b.data)) := by
  show substNamedAux v.data t.data b.data BIN_PATH_IN_ARCHIVE.data = _
  rw [show BIN_PATH_IN_ARCHIVE.data =
    '\x7b' :: '\x7b' :: ' ' :: 'b' :: 'i' :: 'n' :: ' ' :: '\x7d' :: '\x7d' :: '-' ::
    '\x7b' :: '\x7b' :: ' ' :: 'v' :: 'e' :: 'r' :: 's' :: 'i' :: 'o' :: 'n' :: ' ' :: '\x7d' ::
    '\x7d' :: '-' ::
    '\x7b' :: '\x7b' :: ' ' :: 't' :: 'a' :: 'r' :: 'g' :: 'e' :: 't' :: ' ' :: '\x7d' :: '\x7d' ::
    '/' ::
    '\x7b' :: '\x7b' :: ' ' :: 'b' :: 'i' :: 'n' :: ' ' :: '\x7d' :: '\x7d' :: [] from rfl]
  simp +decide [substNamedAux, vtok, ttok, btok]

/-- C1 (amended): the binary-path template is resolved by three sequential
`str::replace` calls (version, then target, then bin), so a substituted
value containing a later placeholder's literal token is itself further
substituted; but whenever the substituted version and target values contain
no brace character, the sequential result coincides with independent
named-placeholder substitution of the configured template. -/
theorem C1_template_substitution :
    ∀ version target bin : String, '\x7b' ∉ version.data → '\x7b' ∉ target.data →
      resolve_binary_path BIN_PATH_IN_ARCHIVE version target bin =
        subst_named BIN_PATH_IN_ARCHIVE version target bin := by
  intro version target bin hv ht
  apply String.ext
  rw [resolve_binary_path_data version target bin hv ht, subst_named_data]

/-- C1 witness: a realistic version, target triple and binary name (no
braces) substituted both ways agree. -/
theorem C1_template_substitution_witness :
    resolve_binary_path BIN_PATH_IN_ARCHIVE "1.2.3" "x86_64-apple-darwin" "mago" =
      subst_named BIN_PATH_IN_ARCHIVE "1.2.3" "x86_64-apple-darwin" "mago" :=
  C1_template_substitution "1.2.3" "x86_64-apple-darwin" "mago" (by decide) (by decide)

/-- C1 counterexample: with a version value that happens to contain the
literal bin token, the sequential replacement of the source substitutes
inside the already-substituted version value (yielding `mago-mago-t/mago`),
while independent named-placeholder substitution leaves it alone
(yielding the version slot verbatim) — the two disagree, refuting the
claim that the source substitutes by independent named placeholders. -/
theorem C1_sequential_substitution_counterexample :
    resolve_binary_path BIN_PATH_IN_ARCHIVE "\x7b\x7b bin \x7d\x7d" "t" "mago" =
      "mago-mago-t/mago"
    ∧ subst_named BIN_PATH_IN_ARCHIVE "\x7b\x7b bin \x7d\x7d" "t" "mago" =
        "mago-\x7b\x7b bin \x7d\x7d-t/mago"
    ∧ resolve_binary_path BIN_PATH_IN_ARCHIVE "\x7b\x7b bin \x7d\x7d" "t" "mago" ≠
        subst_named BIN_PATH_IN_ARCHIVE "\x7b\x7b bin \x7d\x7d" "t" "mago" := by
  have h1 : resolve_binary_path BIN_PATH_IN_ARCHIVE "\x7b\x7b bin \x7d\x7d" "t" "mago" =
      "mago-mago-t/mago" := by
    simp +decide [resolve_binary_path, rustReplace, replaceAux, BIN_PATH_IN_ARCHIVE, vtok,
      ttok, btok, String.ext_iff]
  have h2 : subst_named BIN_PATH_IN_ARCHIVE "\x7b\x7b bin \x7d\x7d" "t" "mago" =
      "mago-\x7b\x7b bin \x7d\x7d-t/mago" := by
    simp +decide [subst_named, substNamedAux, BIN_PATH_IN_ARCHIVE, vtok, ttok, btok,
      String.ext_iff]
  refine ⟨h1, h2, ?_⟩
  rw [h1, h2]
  decide

end Mago
